import Mathlib

/-!
Verification of the rmrobinson/weather service.

The development shallowly embeds the Go sources:
  geoset.go                (GeoSet, haversine distance, Closest)
  envcan/station.go        (feed decoding, relative dates, station cache)
  cmd/weatherd/main.go     (the WeatherService API surface)
  noaa adapter             (feature property extraction)

Modelling conventions:
  - Go float64/float32 values are modelled as exact rationals (ℚ) or, for the
    geographic distance computation, as real numbers (ℝ); floating-point
    rounding is idealized away.
  - Go strings are modelled as Lean String at the interfaces and List Char
    inside the decoding pipeline.  The helpers below reimplement the exact
    semantics of the strings package functions the source uses
    (Split, Replace with empty replacement, TrimSpace, ToLower, HasPrefix,
    TrimPrefix, Contains) for ASCII input.
  - strconv.ParseFloat / strconv.ParseInt are modelled on the plain decimal
    forms that occur in the feeds: an optional sign followed by digits with at
    most one decimal point (ParseFloat), or an optional sign followed by
    digits (ParseInt).  Exotic accepted forms (exponents, hex floats,
    infinities) and bit-size range errors are outside the model.
  - time.Time values are modelled as a civil day number (days since the Unix
    epoch, as used by the date arithmetic in the source) together with a
    second-of-day offset.
-/

/-! ### strings package helpers (ASCII semantics) -/

/-- Unicode white space test restricted to the ASCII characters that occur in
the feeds; models unicode.IsSpace as used by strings.TrimSpace. -/
def isSpaceGo (c : Char) : Bool := c = ' ' ∨ c = '\t' ∨ c = '\n' ∨ c = '\r'

/-- strings.TrimSpace on a character list. -/
def trimSpaceL (l : List Char) : List Char :=
  ((l.dropWhile isSpaceGo).reverse.dropWhile isSpaceGo).reverse

/-- ASCII lower-casing of one character; models unicode.ToLower on ASCII. -/
def toLowerChar (c : Char) : Char :=
  if 'A' ≤ c ∧ c ≤ 'Z' then Char.ofNat (c.toNat + 32) else c

/-- strings.ToLower on a character list (ASCII). -/
def toLowerL (l : List Char) : List Char := l.map toLowerChar

/-- strings.Split with a one-character separator. -/
def splitChar (sep : Char) : List Char → List (List Char)
  | [] => [[]]
  | c :: cs =>
    match splitChar sep cs with
    | [] => [[]]
    | seg :: rest => if c = sep then [] :: seg :: rest else (c :: seg) :: rest

/-- Worker for strings.Split with a multi-character separator.  The Nat
argument counts separator characters still to be consumed after a match; the
list argument strictly decreases, so the recursion is structural. -/
def splitSubAux (sep : List Char) : Nat → List Char → List (List Char)
  | _, [] => [[]]
  | k + 1, _ :: cs => splitSubAux sep k cs
  | 0, c :: cs =>
    if sep.isPrefixOf (c :: cs) then [] :: splitSubAux sep (sep.length - 1) cs
    else
      match splitSubAux sep 0 cs with
      | [] => [[c]]
      | seg :: rest => (c :: seg) :: rest

/-- strings.Split for a non-empty separator. -/
def splitSub (sep l : List Char) : List (List Char) := splitSubAux sep 0 l

/-- Worker for strings.Replace(s, old, new, -1) with new = the empty string:
removes every non-overlapping occurrence of the pattern, left to right. -/
def removeAllAux (pat : List Char) : Nat → List Char → List Char
  | _, [] => []
  | k + 1, _ :: cs => removeAllAux pat k cs
  | 0, c :: cs =>
    if pat.isPrefixOf (c :: cs) then removeAllAux pat (pat.length - 1) cs
    else c :: removeAllAux pat 0 cs

/-- strings.Replace(s, pat, "", -1) for a non-empty pattern. -/
def removeAll (pat l : List Char) : List Char := removeAllAux pat 0 l

/-- strings.Contains: does sub occur as a contiguous run inside the list? -/
def hasSubList (sub : List Char) : List Char → Bool
  | [] => sub.isEmpty
  | c :: cs => sub.isPrefixOf (c :: cs) || hasSubList sub cs

/-- strings.TrimPrefix: drop the prefix when present, otherwise unchanged. -/
def trimStartMatch (pre l : List Char) : List Char :=
  if pre.isPrefixOf l then l.drop pre.length else l

/-! ### strconv helpers -/

def allDigits (l : List Char) : Bool := l.all Char.isDigit

def digitsToNat (l : List Char) : Nat :=
  l.foldl (fun a c => a * 10 + (c.toNat - 48)) 0

/-- Unsigned part of strconv.ParseFloat on plain decimals: digits with at most
one decimal point and at least one digit overall. -/
def parseFloatCore (l : List Char) : Option ℚ :=
  match splitChar '.' l with
  | [ip] => if ip ≠ [] ∧ allDigits ip then some (digitsToNat ip) else none
  | [ip, fp] =>
      if (ip ≠ [] ∨ fp ≠ []) ∧ allDigits ip ∧ allDigits fp then
        some ((digitsToNat ip : ℚ) + (digitsToNat fp : ℚ) / (10 ^ fp.length))
      else none
  | _ => none

/-- strconv.ParseFloat on plain decimal forms, as an exact rational. -/
def parseFloatL (l : List Char) : Option ℚ :=
  match l with
  | [] => none
  | c :: rest =>
    if c = '+' then parseFloatCore rest
    else if c = '-' then (parseFloatCore rest).map Neg.neg
    else parseFloatCore (c :: rest)

def parseIntCore (l : List Char) : Option Int :=
  if l ≠ [] ∧ allDigits l then some (digitsToNat l : Int) else none

/-- strconv.ParseInt base 10 on plain decimal integers. -/
def parseIntL (l : List Char) : Option Int :=
  match l with
  | [] => none
  | c :: rest =>
    if c = '+' then parseIntCore rest
    else if c = '-' then (parseIntCore rest).map Neg.neg
    else parseIntCore (c :: rest)

/-- Go conversion int32(f) of a float64: truncation toward zero. -/
def ratTruncToInt (q : ℚ) : Int := q.num.tdiv (q.den : Int)

/-! ### Data model (weather.proto records, as used by the decoders) -/

/-- WeatherIcon enumeration from the weather proto.  Only the constructors the
decoders produce are modelled; SUNNY is also the zero value of a fresh
condition record (no claim depends on which constructor is the zero value). -/
inductive WeatherIcon
  | SUNNY
  | PARTIALLY_CLOUDY
  | MOSTLY_CLOUDY
  | CLOUDY
  | RAIN
  | CHANCE_OF_RAIN
  | THUNDERSTORMS
  | SNOW
  | FOG
  deriving DecidableEq

/-- WeatherCondition record.  Float fields are exact rationals, int32 fields
are integers; every field defaults to its Go zero value. -/
structure WeatherCondition where
  summary : String := ""
  summaryIcon : WeatherIcon := .SUNNY
  temperature : ℚ := 0
  windChill : ℚ := 0
  dewPoint : ℚ := 0
  pressure : ℚ := 0
  visibility : Int := 0
  humidity : Int := 0
  windSpeed : Int := 0
  uvIndex : Int := 0
  deriving DecidableEq

/-! ### envcan: icon classification (iconFromFeedText) -/

/-- iconFromFeedText from envcan/station.go, on a character list. -/
def iconFromFeedTextL (text0 : List Char) : WeatherIcon :=
  let text := toLowerL text0
  if hasSubList "snow".toList text || hasSubList "flurries".toList text then .SNOW
  else if hasSubList "rain".toList text then
    (if hasSubList "chance".toList text || hasSubList "partially".toList text then
        .CHANCE_OF_RAIN
     else if hasSubList "storm".toList text || hasSubList "lightning".toList text then
        .THUNDERSTORMS
     else .RAIN)
  else if hasSubList "thunder".toList text then .THUNDERSTORMS
  else if hasSubList "cloud".toList text then
    (if hasSubList "partially".toList text then .PARTIALLY_CLOUDY
     else if hasSubList "sun".toList text then .MOSTLY_CLOUDY
     else .CLOUDY)
  else if hasSubList "fog".toList text || hasSubList "mist".toList text then .FOG
  else if hasSubList "sunny".toList text then
    (if hasSubList "partially".toList text then .PARTIALLY_CLOUDY else .SUNNY)
  else .SUNNY

/-- iconFromFeedText on a String, the signature of the source function. -/
def iconFromFeedText (text : String) : WeatherIcon := iconFromFeedTextL text.toList

/-- Transcription of the classification order as the spec states it
(lower-case, then keyword containment in strict order, first match wins),
to be compared with the implementation. -/
def iconSpecOrdered (text : String) : WeatherIcon :=
  let t := toLowerL text.toList
  let has := fun (kw : String) => hasSubList kw.toList t
  if has "snow" || has "flurries" then .SNOW
  else if has "rain" then
    (if has "chance" || has "partially" then .CHANCE_OF_RAIN
     else if has "storm" || has "lightning" then .THUNDERSTORMS
     else .RAIN)
  else if has "thunder" then .THUNDERSTORMS
  else if has "cloud" then
    (if has "partially" then .PARTIALLY_CLOUDY
     else if has "sun" then .MOSTLY_CLOUDY
     else .CLOUDY)
  else if has "fog" || has "mist" then .FOG
  else if has "sunny" then (if has "partially" then .PARTIALLY_CLOUDY else .SUNNY)
  else .SUNNY

/-! ### envcan: current-conditions decoder (currentConditionsToCondition) -/

/-- The Wind case of the label switch: a 2-token value takes token 0, a
3-token value takes token 1, and any other token count parses the whole
trimmed value (which yields zero exactly when that text is not numeric). -/
def windSpeedFromValue (value : List Char) : Int :=
  let s := trimSpaceL value
  let parts := splitChar ' ' s
  let str := if parts.length = 2 then parts.getD 0 []
             else if parts.length = 3 then parts.getD 1 []
             else s
  (parseIntL str).getD 0

/-- Body of the per-record loop of currentConditionsToCondition: trim the
record, strip bold markup, split on the colon; a record that does not split
into exactly two parts is skipped, otherwise the switch on the label fires. -/
def processRecord (cond : WeatherCondition) (record0 : List Char) : WeatherCondition :=
  let record1 := trimSpaceL record0
  let record2 := removeAll "<b>".toList record1
  let record3 := removeAll "</b>".toList record2
  match splitChar ':' record3 with
  | [label, value] =>
    if label = "Condition".toList then
      let s := trimSpaceL value
      { cond with summary := String.mk s, summaryIcon := iconFromFeedTextL s }
    else if label = "Temperature".toList then
      let s := removeAll "&deg;C".toList (trimSpaceL value)
      { cond with temperature := (parseFloatL s).getD 0 }
    else if label = "Wind Chill".toList then
      let s := removeAll "&deg;C".toList (trimSpaceL value)
      { cond with windChill := (parseFloatL s).getD 0 }
    else if label = "Dewpoint".toList then
      let s := removeAll "&deg;C".toList (trimSpaceL value)
      { cond with dewPoint := (parseFloatL s).getD 0 }
    else if label = "Pressure".toList then
      let s := removeAll " kPa".toList (trimSpaceL value)
      { cond with pressure := (parseFloatL s).getD 0 }
    else if label = "Visibility".toList then
      let s := removeAll " km".toList (trimSpaceL value)
      { cond with visibility := ratTruncToInt ((parseFloatL s).getD 0) }
    else if label = "Humidity".toList then
      let s := removeAll " %".toList (trimSpaceL value)
      { cond with humidity := (parseIntL s).getD 0 }
    else if label = "Wind".toList then
      { cond with windSpeed := windSpeedFromValue value }
    else cond
  | _ => cond

/-- currentConditionsToCondition from envcan/station.go: split the description
on the line-break marker and fold the per-record switch over the lines,
starting from the zero condition record. -/
def currentConditionsToCondition (cc : String) : WeatherCondition :=
  (splitSub "<br/>".toList cc.toList).foldl processRecord {}

/-! ### envcan: shared numeric extractor (floatFromFeedText) -/

/-- The scan loop of floatFromFeedText: walk all tokens carrying the previous
token; every parseable token overwrites the running value, negated when the
previous token is the literal word minus.  The accumulator is none exactly
while no parseable token has been seen. -/
def scanTokens : Option (List Char) → Option ℚ → List (List Char) → Option ℚ
  | _, acc, [] => acc
  | prev, acc, f :: rest =>
    match parseFloatL f with
    | none => scanTokens (some f) acc rest
    | some v =>
        scanTokens (some f) (some (if prev = some "minus".toList then -v else v)) rest

/-- floatFromFeedText on a character list, returning none for the
"no value present" failure. -/
def floatFromFeedTextL (l : List Char) : Option ℚ :=
  scanTokens none none (splitChar ' ' l)

inductive FeedTextError
  | noValuePresent
  deriving DecidableEq

/-- floatFromFeedText from envcan/station.go. -/
def floatFromFeedText (input : String) : Except FeedTextError ℚ :=
  match floatFromFeedTextL input.toList with
  | some v => .ok v
  | none => .error .noValuePresent

/-! ### envcan: forecast-narrative decoder (forecastConditionToCondition) -/

/-- The inner loop of the Wind sentence handler: find a km/h token that is not
the first token, parse the token before it, and stop at the first success. -/
def windLoop (cond : WeatherCondition) : Option (List Char) → List (List Char) → WeatherCondition
  | _, [] => cond
  | none, f :: rest => windLoop cond (some f) rest
  | some p, f :: rest =>
    if f = "km/h".toList then
      match parseIntL p with
      | some v => { cond with windSpeed := v }
      | none => windLoop cond (some f) rest
    else windLoop cond (some f) rest

/-- Per-sentence step of forecastConditionToCondition for the sentences after
the first: prefix-dispatched extraction into the condition record. -/
def forecastRecordStep (cond : WeatherCondition) (record0 : List Char) : WeatherCondition :=
  let record := trimSpaceL record0
  if "Wind chill".toList.isPrefixOf record then
    match floatFromFeedTextL record with
    | some v => { cond with windChill := v }
    | none => cond
  else if "Wind".toList.isPrefixOf record then
    let stripped := trimStartMatch "Wind ".toList record
    windLoop cond none (splitChar ' ' stripped)
  else if "UV index".toList.isPrefixOf record then
    let stripped := trimStartMatch "UV index ".toList record
    let fields := splitChar ' ' stripped
    match parseIntL (fields.getD 0 []) with
    | some v => { cond with uvIndex := v }
    | none => cond
  else if "High".toList.isPrefixOf record || "Low".toList.isPrefixOf record
      || "Temperature".toList.isPrefixOf record then
    match floatFromFeedTextL record with
    | some v => { cond with temperature := v }
    | none => cond
  else cond

/-- forecastConditionToCondition from envcan/station.go: the first sentence is
the summary and drives the icon; later sentences are folded through the
prefix dispatch. -/
def forecastConditionToCondition (fc : String) : WeatherCondition :=
  match splitChar '.' fc.toList with
  | [] => {}
  | first :: rest =>
    let s := trimSpaceL first
    rest.foldl forecastRecordStep { summary := String.mk s, summaryIcon := iconFromFeedTextL s }

/-! ### envcan: relative date resolution -/

/-- The fixed ordered week from envcan/station.go. -/
def dayOfWeek : List (List Char) :=
  [ "sunday".toList, "monday".toList, "tuesday".toList, "wednesday".toList,
    "thursday".toList, "friday".toList, "saturday".toList ]

/-- The precomputed 7 by 7 forward-delta table from envcan/station.go. -/
def deltaBetweenDays : List (List Int) :=
  [ [0, 1, 2, 3, 4, 5, 6],
    [6, 0, 1, 2, 3, 4, 5],
    [5, 6, 0, 1, 2, 3, 4],
    [4, 5, 6, 0, 1, 2, 3],
    [3, 4, 5, 6, 0, 1, 2],
    [2, 3, 4, 5, 6, 0, 1],
    [1, 2, 3, 4, 5, 6, 0] ]

/-- Weekday index (sunday = 0) of a civil day number; day 0 = 1970-01-01 was a
Thursday (index 4).  Models the weekday computation behind time.Format. -/
def weekdayIdx (d : Int) : Nat := ((d + 4) % 7).toNat

/-- The capitalized weekday name produced by Format applied with the layout
string Monday, as a character list. -/
def goWeekdayName (d : Int) : List Char :=
  ([ "Sunday".toList, "Monday".toList, "Tuesday".toList, "Wednesday".toList,
     "Thursday".toList, "Friday".toList, "Saturday".toList ]).getD (weekdayIdx d) []

/-- Civil date to day number since 1970-01-01 (proleptic Gregorian, for years
from 1 on), the day-number view of the time.Time values the source passes to
its date arithmetic; month and day are 1-based. -/
def civilToDays (y m d : Nat) : Int :=
  let y2 := if m ≤ 2 then y - 1 else y
  let era := y2 / 400
  let yoe := y2 % 400
  let mp := (m + 9) % 12
  let doy := (153 * mp + 2) / 5 + d - 1
  let doe := yoe * 365 + yoe / 4 - yoe / 100 + doy
  (era * 146097 + doe : Int) - 719468

inductive DateError
  | invalidDate
  deriving DecidableEq

/-- futureDateFromFeedDate from envcan/station.go, on day numbers: lower-case
the target day name and the weekday name of the anchor, look both up in the
fixed week, fail with InvalidDate when a lookup misses, otherwise add the
table delta to the anchor (AddDate(0, 0, delta) at day-number level). -/
def futureDateFromFeedDate (startDate : Int) (futureDayOfWeekStr : String) :
    Except DateError Int :=
  let fd := toLowerL futureDayOfWeekStr.toList
  let sd := toLowerL (goWeekdayName startDate)
  match dayOfWeek.findIdx? (fun day => day == fd), dayOfWeek.findIdx? (fun day => day == sd) with
  | some futureIdx, some startIdx =>
      .ok (startDate + (deltaBetweenDays.getD startIdx []).getD futureIdx 0)
  | _, _ => .error .invalidDate

/-! ### envcan: feed parsing (Station.parseFeed) -/

/-- A time.Time value, split into civil day number and second of day. -/
structure GoTime where
  day : Int
  secs : Nat := 0
  deriving DecidableEq

/-- One decoded feed item as delivered by the gofeed parser: category tags,
title, description text, unique id, published and updated times. -/
structure FeedItem where
  title : String := ""
  description : String := ""
  guid : String := ""
  categories : List String := []
  published : GoTime := { day := 0 }
  updated : GoTime := { day := 0 }
  deriving DecidableEq

/-- WeatherReport record; timestamp fields are nil until set. -/
structure WeatherReport where
  conditions : WeatherCondition := {}
  observationId : String := ""
  observedAt : Option GoTime := none
  createdAt : Option GoTime := none
  updatedAt : Option GoTime := none
  deriving DecidableEq

/-- WeatherForecast record; forecastedFor stays nil when the relative date of
the item title cannot be resolved. -/
structure WeatherForecast where
  forecastId : String := ""
  conditions : WeatherCondition := {}
  createdAt : Option GoTime := none
  updatedAt : Option GoTime := none
  forecastedFor : Option GoTime := none
  deriving DecidableEq

/-- The Current Conditions branch of the parseFeed loop: overwrite the report
fields from the item. -/
def reportFromItem (report : WeatherReport) (item : FeedItem) : WeatherReport :=
  { report with
    observedAt := some item.updated
    observationId := item.guid
    createdAt := some item.published
    updatedAt := some item.updated
    conditions := currentConditionsToCondition item.description }

/-- The Weather Forecasts branch of the parseFeed loop: build the forecast
record, then try to resolve the leading day token of the title (the part of
the title before the first colon, split on spaces); on success set
forecastedFor at 23:00 for a night forecast (trailing night token) and at
12:00 otherwise, on failure leave it absent. -/
def mkForecastRecord (item : FeedItem) : WeatherForecast :=
  let base : WeatherForecast :=
    { forecastId := item.guid
      conditions := forecastConditionToCondition item.description
      createdAt := some item.published
      updatedAt := some item.updated }
  let dayToks := splitChar ' ' ((splitChar ':' item.title.toList).getD 0 [])
  match futureDateFromFeedDate item.published.day (String.mk (dayToks.getD 0 [])) with
  | .error _ => base
  | .ok d =>
      let hour : Nat :=
        if dayToks.length > 1 ∧ dayToks.getD 1 [] = "night".toList then 23 else 12
      { base with forecastedFor := some { day := d, secs := hour * 3600 } }

/-- Per-item step of parseFeed: fold the category dispatch over the item
categories. -/
def parseFeedStep (acc : WeatherReport × List WeatherForecast) (item : FeedItem) :
    WeatherReport × List WeatherForecast :=
  item.categories.foldl
    (fun acc cat =>
      if cat = "Current Conditions" then (reportFromItem acc.1 item, acc.2)
      else if cat = "Weather Forecasts" then (acc.1, acc.2 ++ [mkForecastRecord item])
      else acc)
    acc

/-- Station.parseFeed from envcan/station.go: fold the items, starting from a
report with a fresh (zero) condition record and no forecasts. -/
def parseFeed (items : List FeedItem) : WeatherReport × List WeatherForecast :=
  items.foldl parseFeedStep ({ conditions := {} }, [])

/-! ### envcan: station cache and refresh -/

/-- Mutable station state: cached report, cached forecast list, last-refreshed
time in nanoseconds.  The zero value models a never-refreshed station (the Go
zero time, far in the past of any realistic call time). -/
structure StationState where
  currentReport : Option WeatherReport := none
  forecast : List WeatherForecast := []
  lastRefreshed : Int := 0
  deriving DecidableEq

/-- refreshFrequency = 30 minutes, in nanoseconds. -/
def refreshFrequency : Int := 30 * 60 * 1000000000

/-- Station.shouldRefresh: now.Add(-refreshFrequency).After(lastRefreshed),
where After is a strict comparison. -/
def shouldRefresh (now : Int) (s : StationState) : Bool :=
  now - refreshFrequency > s.lastRefreshed

/-- Outcome of one upstream HTTP round trip, as distinguished by
Station.getFeed: request or transport failure; a response with a non-2xx
status code; a 200 response whose body the feed parser rejects; or a 200
response decoding to a list of feed items. -/
inductive UpstreamOutcome
  | netError
  | nonOKStatus (code : Nat)
  | parseFailure
  | feedOk (items : List FeedItem)
  deriving DecidableEq

/-- A refresh that does not complete normally: either a Go error returned to
the caller, or a runtime panic. -/
inductive RunError
  | goError
  | nilFeedPanic
  deriving DecidableEq

/-- Station.getFeed from envcan/station.go: transport and parse failures
return an error; a non-OK status returns nil feed AND nil error. -/
def getFeed : UpstreamOutcome → Except RunError (Option (List FeedItem))
  | .netError => .error .goError
  | .nonOKStatus _ => .ok none
  | .parseFailure => .error .goError
  | .feedOk items => .ok (some items)

/-- Station.refresh: on a getFeed error, return it with the state untouched;
on a nil feed (the non-2xx path), parseFeed dereferences the nil feed pointer
and the call panics; otherwise replace report, forecast and lastRefreshed
wholesale.  parseFeed itself never returns an error. -/
def refresh (s : StationState) (now : Int) (up : UpstreamOutcome) :
    Except RunError StationState :=
  match getFeed up with
  | .error e => .error e
  | .ok none => .error .nilFeedPanic
  | .ok (some items) =>
      let rf := parseFeed items
      .ok { currentReport := some rf.1, forecast := rf.2, lastRefreshed := now }

/-- Station.GetReport as a state transformer: refresh when stale, then return
the cached report.  The Bool records whether an upstream fetch was attempted;
on a refresh failure the state is unchanged and the failure propagates. -/
def getReportS (s : StationState) (now : Int) (up : UpstreamOutcome) :
    Except RunError (Option WeatherReport) × StationState × Bool :=
  if shouldRefresh now s then
    match refresh s now up with
    | .error e => (.error e, s, true)
    | .ok s2 => (.ok s2.currentReport, s2, true)
  else (.ok s.currentReport, s, false)

/-- Station.GetForecast as a state transformer, same cache discipline. -/
def getForecastS (s : StationState) (now : Int) (up : UpstreamOutcome) :
    Except RunError (List WeatherForecast) × StationState × Bool :=
  if shouldRefresh now s then
    match refresh s now up with
    | .error e => (.error e, s, true)
    | .ok s2 => (.ok s2.forecast, s2, true)
  else (.ok s.forecast, s, false)

/-! ### GeoSet (geoset.go) -/

/-- One GeoSet entry: coordinates in degrees and an opaque payload. -/
structure GeoEntry (α : Type) where
  latitude : ℝ
  longitude : ℝ
  value : α

/-- GeoSet: an append-only ordered collection of entries. -/
structure GeoSet (α : Type) where
  entries : List (GeoEntry α) := []

/-- The haversine helper hsin from geoset.go. -/
noncomputable def hsin (θ : ℝ) : ℝ := Real.sin (θ / 2) ^ 2

/-- Great-circle distance from geoset.go: degree inputs converted to radians,
haversine formula on a sphere of radius 6371000 metres.  math.Asin is NaN
outside [-1, 1] while Real.arcsin clamps; the two agree whenever h ≤ 1, which
holds for latitudes in [-90, 90]. -/
noncomputable def distance (lat1 lon1 lat2 lon2 : ℝ) : ℝ :=
  let r : ℝ := 6371000
  let la1 := lat1 * Real.pi / 180
  let lo1 := lon1 * Real.pi / 180
  let la2 := lat2 * Real.pi / 180
  let lo2 := lon2 * Real.pi / 180
  let h := hsin (la2 - la1) + Real.cos la1 * Real.cos la2 * hsin (lo2 - lo1)
  2 * r * Real.arcsin (Real.sqrt h)

/-- math.MaxFloat64, the initial shortest distance of the Closest loop. -/
noncomputable def maxFloat64 : ℝ := 2 ^ 1024 - 2 ^ 971

open Classical in
/-- The loop body of GeoSet.Closest: keep the first entry whose distance is
strictly below the running shortest distance. -/
noncomputable def closestLoop {α : Type} (lat lon : ℝ) :
    List (GeoEntry α) → ℝ → Option α → Option α
  | [], _, value => value
  | e :: rest, shortest, value =>
    if distance lat lon e.latitude e.longitude < shortest then
      closestLoop lat lon rest (distance lat lon e.latitude e.longitude) (some e.value)
    else closestLoop lat lon rest shortest value

/-- GeoSet.Closest from geoset.go. -/
noncomputable def GeoSet.Closest {α : Type} (gs : GeoSet α) (lat lon : ℝ) : Option α :=
  closestLoop lat lon gs.entries maxFloat64 none

/-! ### WeatherService API (cmd/weatherd/main.go) -/

/-- A station as registered with the API: its display name together with its
cache state.  The coordinates live in the GeoSet entry. -/
structure RegStation where
  name : String
  state : StationState
  deriving DecidableEq

structure GetCurrentReportResponse where
  report : Option WeatherReport
  stationName : String
  deriving DecidableEq

structure GetForecastResponse where
  forecastRecords : List WeatherForecast
  deriving DecidableEq

/-- How an API call can fail: a runtime panic from the nil-interface type
assertion on an empty set, a runtime panic from the nil feed dereference on a
non-2xx upstream status, the ErrLocationNotFound status, or a station error
passed through to the caller. -/
inductive APIError
  | nilInterfacePanic
  | nilFeedDerefPanic
  | locationNotFound
  | upstreamError
  deriving DecidableEq

/-- The ErrLocationNotFound status value defined in the source. -/
def ErrLocationNotFound : APIError := .locationNotFound

/-- API.GetCurrentReport.  The source runs a plain type assertion on the
Closest result BEFORE its nil check, so an empty set panics and the
ErrLocationNotFound branch below the assertion is unreachable.  A station
error is only logged: the response is still returned, with the nil report
the station handed back.  A panic inside the refresh propagates. -/
noncomputable def apiGetCurrentReport (gs : GeoSet RegStation) (lat lon : ℝ)
    (now : Int) (up : UpstreamOutcome) :
    Except APIError (GetCurrentReportResponse × RegStation) :=
  match gs.Closest lat lon with
  | none => .error .nilInterfacePanic
  | some s =>
    match getReportS s.state now up with
    | (.error .nilFeedPanic, _, _) => .error .nilFeedDerefPanic
    | (.error .goError, st, _) =>
        .ok ({ report := none, stationName := s.name }, { s with state := st })
    | (.ok rep, st, _) =>
        .ok ({ report := rep, stationName := s.name }, { s with state := st })

/-- API.GetForecast.  Same unreachable nil check as GetCurrentReport, but a
station error is returned to the caller. -/
noncomputable def apiGetForecast (gs : GeoSet RegStation) (lat lon : ℝ)
    (now : Int) (up : UpstreamOutcome) :
    Except APIError (GetForecastResponse × RegStation) :=
  match gs.Closest lat lon with
  | none => .error .nilInterfacePanic
  | some s =>
    match getForecastS s.state now up with
    | (.error .nilFeedPanic, _, _) => .error .nilFeedDerefPanic
    | (.error .goError, _, _) => .error .upstreamError
    | (.ok fc, st, _) =>
        .ok ({ forecastRecords := fc }, { s with state := st })

/-! ### NOAA adapter: feature property extraction -/

structure PropertyValueFloat where
  validTime : String := ""
  value : ℚ
  deriving DecidableEq

structure PropertyFloat where
  sourceUnit : String := ""
  unitOfMeasure : String := ""
  values : List PropertyValueFloat
  deriving DecidableEq

structure PropertyValueInt where
  validTime : String := ""
  value : Int
  deriving DecidableEq

structure PropertyInt where
  sourceUnit : String := ""
  unitOfMeasure : String := ""
  values : List PropertyValueInt
  deriving DecidableEq

/-- Result of a Go function call that either returns normally or panics with
an index-out-of-range runtime error. -/
inductive GoRuntime (α : Type)
  | ok (val : α)
  | indexOutOfRangePanic
  deriving DecidableEq

/-- feature.getCurrentFloatFromProperty from the NOAA adapter.  The feature
property map is modelled as an association list from property name to the
unmarshal result: absent key = property unset, some none = json.Unmarshal
error, some (some p) = a well-formed property.  Both error branches return 0;
a well-formed property is indexed at Values[0] unconditionally, so an empty
values list panics. -/
def getCurrentFloatFromProperty (props : List (String × Option PropertyFloat))
    (propName : String) : GoRuntime ℚ :=
  match props.lookup propName with
  | none => .ok 0
  | some none => .ok 0
  | some (some property) =>
    match property.values with
    | [] => .indexOutOfRangePanic
    | v :: _ =>
      if property.unitOfMeasure = "unit:degF" then .ok ((v.value - 32) * 5 / 9)
      else .ok v.value

/-- feature.getCurrentIntFromProperty from the NOAA adapter; same shape as the
float variant, without the unit conversion. -/
def getCurrentIntFromProperty (props : List (String × Option PropertyInt))
    (propName : String) : GoRuntime Int :=
  match props.lookup propName with
  | none => .ok 0
  | some none => .ok 0
  | some (some property) =>
    match property.values with
    | [] => .indexOutOfRangePanic
    | v :: _ => .ok v.value

/-! ### Helper lemmas -/

theorem weekdayIdx_lt (d : Int) : weekdayIdx d < 7 := by
  unfold weekdayIdx
  have h1 : 0 ≤ (d + 4) % 7 := Int.emod_nonneg _ (by norm_num)
  have h2 : (d + 4) % 7 < 7 := Int.emod_lt_of_pos _ (by norm_num)
  omega

/-- The anchor-side lookup of futureDateFromFeedDate always succeeds, at the
weekday index of the anchor: lower-casing the formatted weekday name gives
exactly the corresponding entry of the fixed week. -/
theorem startIdx_lookup (d : Int) :
    dayOfWeek.findIdx? (fun day => day == toLowerL (goWeekdayName d)) = some (weekdayIdx d) := by
  have h7 := weekdayIdx_lt d
  unfold goWeekdayName
  generalize weekdayIdx d = k at h7 ⊢
  interval_cases k <;> decide

/-- C7: the relative date resolver matches the target day name
case-insensitively against the fixed week (the anchor weekday, produced by
formatting, always matches), fails with InvalidDate exactly when the target
name is not a weekday, and otherwise adds the table delta, which is the
non-negative forward difference in 0..6 with delta i i = 0; resolving Monday
from 2019-01-05 (a Saturday) gives 2019-01-07 and resolving Taco fails. -/
theorem futureDateFromFeedDate_spec :
    (∀ (d : Int) (s : String),
       futureDateFromFeedDate d s =
         match dayOfWeek.findIdx? (fun day => day == toLowerL s.toList) with
         | none => .error .invalidDate
         | some tIdx => .ok (d + (deltaBetweenDays.getD (weekdayIdx d) []).getD tIdx 0)) ∧
    (∀ i j : Fin 7,
       (deltaBetweenDays.getD i.val []).getD j.val 0 = (((j.val + 7 - i.val) % 7 : Nat) : Int)) ∧
    (∀ i : Fin 7, (deltaBetweenDays.getD i.val []).getD i.val 0 = 0) ∧
    (∀ i j : Fin 7,
       0 ≤ (deltaBetweenDays.getD i.val []).getD j.val 0 ∧
       (deltaBetweenDays.getD i.val []).getD j.val 0 ≤ 6) ∧
    goWeekdayName (civilToDays 2019 1 5) = "Saturday".toList ∧
    futureDateFromFeedDate (civilToDays 2019 1 5) "Monday" = .ok (civilToDays 2019 1 7) ∧
    futureDateFromFeedDate (civilToDays 2019 1 5) "Taco" = .error .invalidDate := by
  refine ⟨?_, by decide, by decide, by decide, by decide, by rfl, by rfl⟩
  intro d s
  simp only [futureDateFromFeedDate]
  rw [startIdx_lookup]
  cases hf : dayOfWeek.findIdx? (fun day => day == toLowerL s.toList) <;> simp

/-- C10: NOAA numeric property extraction returns 0 for a missing property and
for an unmarshal failure, returns normally whenever the property has a
non-empty values list, and panics with index out of range exactly on a
present, well-formed property whose values list is empty. -/
theorem noaa_property_extraction_spec :
    (∀ (props : List (String × Option PropertyFloat)) (name : String),
        props.lookup name = none → getCurrentFloatFromProperty props name = .ok 0) ∧
    (∀ (props : List (String × Option PropertyFloat)) (name : String),
        props.lookup name = some none → getCurrentFloatFromProperty props name = .ok 0) ∧
    (∀ (props : List (String × Option PropertyFloat)) (name : String) (p : PropertyFloat),
        props.lookup name = some (some p) → p.values ≠ [] →
        ∃ q : ℚ, getCurrentFloatFromProperty props name = .ok q) ∧
    (∀ (props : List (String × Option PropertyFloat)) (name : String) (p : PropertyFloat),
        props.lookup name = some (some p) → p.values = [] →
        getCurrentFloatFromProperty props name = .indexOutOfRangePanic) ∧
    (∀ (props : List (String × Option PropertyInt)) (name : String),
        props.lookup name = none → getCurrentIntFromProperty props name = .ok 0) ∧
    (∀ (props : List (String × Option PropertyInt)) (name : String),
        props.lookup name = some none → getCurrentIntFromProperty props name = .ok 0) ∧
    (∀ (props : List (String × Option PropertyInt)) (name : String) (p : PropertyInt),
        props.lookup name = some (some p) → p.values ≠ [] →
        ∃ z : Int, getCurrentIntFromProperty props name = .ok z) ∧
    (∀ (props : List (String × Option PropertyInt)) (name : String) (p : PropertyInt),
        props.lookup name = some (some p) → p.values = [] →
        getCurrentIntFromProperty props name = .indexOutOfRangePanic) := by
  refine ⟨?_, ?_, ?_, ?_, ?_, ?_, ?_, ?_⟩
  · intro props name h
    simp only [getCurrentFloatFromProperty, h]
  · intro props name h
    simp only [getCurrentFloatFromProperty, h]
  · intro props name p h hv
    simp only [getCurrentFloatFromProperty, h]
    cases hval : p.values with
    | nil => exact absurd hval hv
    | cons v rest =>
      by_cases hu : p.unitOfMeasure = "unit:degF"
      · exact ⟨(v.value - 32) * 5 / 9, by simp [hu]⟩
      · exact ⟨v.value, by simp [hu]⟩
  · intro props name p h hv
    simp only [getCurrentFloatFromProperty, h, hv]
  · intro props name h
    simp only [getCurrentIntFromProperty, h]
  · intro props name h
    simp only [getCurrentIntFromProperty, h]
  · intro props name p h hv
    simp only [getCurrentIntFromProperty, h]
    cases hval : p.values with
    | nil => exact absurd hval hv
    | cons v rest => exact ⟨v.value, rfl⟩
  · intro props name p h hv
    simp only [getCurrentIntFromProperty, h, hv]

/-- C10 witness: the three behaviours at concrete inputs, via the theorem. -/
theorem noaa_property_extraction_spec_witness :
    getCurrentFloatFromProperty [ ("temperature", some { values := [] }) ] "temperature"
      = .indexOutOfRangePanic ∧
    (∃ q : ℚ, getCurrentFloatFromProperty
        [ ("temperature", some { values := [ { value := 5 } ] }) ] "temperature" = .ok q) ∧
    getCurrentFloatFromProperty [] "temperature" = .ok 0 ∧
    getCurrentIntFromProperty [ ("relativeHumidity", some { values := [] }) ] "relativeHumidity"
      = .indexOutOfRangePanic :=
  ⟨noaa_property_extraction_spec.2.2.2.1 _ "temperature" _ rfl rfl,
   noaa_property_extraction_spec.2.2.1 _ "temperature" _ rfl (by simp),
   noaa_property_extraction_spec.1 [] "temperature" rfl,
   noaa_property_extraction_spec.2.2.2.2.2.2.2 _ "relativeHumidity" _ rfl rfl⟩

/-- C6: icon classification agrees with the ordered keyword procedure the spec
states, and on the stated examples: Cloudy is CLOUDY, Mist is FOG, and a text
containing both rain and chance classifies as CHANCE_OF_RAIN. -/
theorem iconFromFeedText_spec :
    (∀ text : String, iconFromFeedText text = iconSpecOrdered text) ∧
    iconFromFeedText "Cloudy" = .CLOUDY ∧
    iconFromFeedText "Mist" = .FOG ∧
    iconFromFeedText "Chance of rain showers" = .CHANCE_OF_RAIN := by
  refine ⟨fun text => rfl, by decide, by decide, by decide⟩

theorem or_some {α : Type} (x : Option α) (a : α) : x.or (some a) = some (x.getD a) := by
  cases x <;> rfl

/-- The last-number rule as the spec words it: pair every whitespace token
with its predecessor, keep the parseable ones (negated when the predecessor
is the literal word minus), and take the last. -/
def lastNumberRule (toks : List (List Char)) : Option ℚ :=
  (((none :: toks.map some).zip toks).filterMap
    (fun pt => (parseFloatL pt.2).map
      (fun v => if pt.1 = some "minus".toList then -v else v))).getLast?

/-- The scan loop computes exactly the last signed parse over the remaining
tokens, falling back to the accumulator when none parses. -/
theorem scanTokens_eq (toks : List (List Char)) :
    ∀ (prev : Option (List Char)) (acc : Option ℚ),
      scanTokens prev acc toks =
        ((((prev :: toks.map some).zip toks).filterMap
            (fun pt => (parseFloatL pt.2).map
              (fun v => if pt.1 = some "minus".toList then -v else v))).getLast?).or acc := by
  induction toks with
  | nil => intro prev acc; rfl
  | cons f rest ih =>
    intro prev acc
    cases hp : parseFloatL f with
    | none =>
      simp only [scanTokens, hp, List.map_cons, List.zip_cons_cons, List.filterMap_cons,
        Option.map_none']
      exact ih (some f) acc
    | some v =>
      simp only [scanTokens, hp, List.map_cons, List.zip_cons_cons, List.filterMap_cons,
        Option.map_some']
      rw [ih, or_some, List.getLast?_cons]
      rfl

/-- floatFromFeedText computes the last-number rule over the space-split
tokens of the sentence. -/
theorem floatFromFeedTextL_eq (l : List Char) :
    floatFromFeedTextL l = lastNumberRule (splitChar ' ' l) := by
  unfold floatFromFeedTextL lastNumberRule
  rw [scanTokens_eq]
  exact Option.or_none

/-- C5: floatFromFeedText returns the last space-separated token parseable as
a number, negated when the immediately preceding token is the literal word
minus, and fails with no value present exactly when no token parses; the two
spec examples evaluate as stated. -/
theorem floatFromFeedText_last_number :
    (∀ input : String,
       floatFromFeedText input =
         match lastNumberRule (splitChar ' ' input.toList) with
         | some v => .ok v
         | none => .error .noValuePresent) ∧
    (∀ input : String,
       floatFromFeedText input = .error .noValuePresent ↔
         ∀ t ∈ splitChar ' ' input.toList, parseFloatL t = none) ∧
    floatFromFeedText "this is a text with minus 2 values" = .ok (-2) ∧
    floatFromFeedText "this is a text with 2 values; and 1 other value" = .ok 1 := by
  have hmain : ∀ input : String,
      floatFromFeedText input =
        match lastNumberRule (splitChar ' ' input.toList) with
        | some v => .ok v
        | none => .error .noValuePresent := by
    intro input
    unfold floatFromFeedText
    rw [floatFromFeedTextL_eq]
  refine ⟨hmain, ?_, ?_, ?_⟩
  · intro input
    rw [hmain input]
    have hlen : (splitChar ' ' input.toList).length ≤
        (none :: (splitChar ' ' input.toList).map some).length := by simp
    constructor
    · intro h t ht
      cases hl : lastNumberRule (splitChar ' ' input.toList) with
      | some v => rw [hl] at h; exact absurd h (by simp)
      | none =>
        unfold lastNumberRule at hl
        rw [List.getLast?_eq_none_iff, List.filterMap_eq_nil_iff] at hl
        have : t ∈ ((none :: (splitChar ' ' input.toList).map some).zip
            (splitChar ' ' input.toList)).map Prod.snd := by
          rw [List.map_snd_zip _ _ hlen]; exact ht
        obtain ⟨pt, hpt, hpt2⟩ := List.mem_map.1 this
        have := hl pt hpt
        rw [Option.map_eq_none'] at this
        rw [← hpt2]; exact this
    · intro h
      cases hl : lastNumberRule (splitChar ' ' input.toList) with
      | some v =>
        exfalso
        unfold lastNumberRule at hl
        have hne : (((none :: (splitChar ' ' input.toList).map some).zip
            (splitChar ' ' input.toList)).filterMap
              (fun pt => (parseFloatL pt.2).map
                (fun v => if pt.1 = some "minus".toList then -v else v))) ≠ [] := by
          intro hnil
          rw [hnil] at hl
          exact absurd hl (by simp)
        rw [Ne, List.filterMap_eq_nil_iff] at hne
        push_neg at hne
        obtain ⟨pt, hpt, hbad⟩ := hne
        have h2 := h pt.2 (List.of_mem_zip hpt).2
        rw [h2] at hbad
        exact hbad rfl
      | none => rfl
  · simp +decide [floatFromFeedText, floatFromFeedTextL, scanTokens, splitChar, parseFloatL,
      parseFloatCore, allDigits, digitsToNat]
  · simp +decide [floatFromFeedText, floatFromFeedTextL, scanTokens, splitChar, parseFloatL,
      parseFloatCore, allDigits, digitsToNat]

/-- C4 counterexample: with the degree sign written as the literal character,
exactly as the claimed feed text states it, the decoder strips nothing (the
source removes the HTML entity &deg;C, not the character), the value fails to
parse and the temperature field stays 0 instead of the claimed -1.3. -/
theorem currentConditions_degC_counterexample :
    ((currentConditionsToCondition
      "Condition: Cloudy <br/> Temperature: -1.3°C <br/> Wind: SW 21 km/h").temperature = 0 ∧
     (currentConditionsToCondition
      "Condition: Cloudy <br/> Temperature: -1.3°C <br/> Wind: SW 21 km/h").temperature
      ≠ -13 / 10) ∧
    ((currentConditionsToCondition "Wind: 21").windSpeed = 21 ∧
     (currentConditionsToCondition "Wind: 21").windSpeed ≠ 0) := by
  have hw : (currentConditionsToCondition "Wind: 21").windSpeed = 21 := by
    simp +decide [currentConditionsToCondition, splitSub, splitSubAux, processRecord,
      windSpeedFromValue, trimSpaceL, isSpaceGo, removeAll, removeAllAux, splitChar,
      List.isPrefixOf, parseIntL, parseIntCore, allDigits, digitsToNat]
  have h : (currentConditionsToCondition
      "Condition: Cloudy <br/> Temperature: -1.3°C <br/> Wind: SW 21 km/h").temperature = 0 := by
    simp +decide [currentConditionsToCondition, splitSub, splitSubAux, processRecord,
      windSpeedFromValue, trimSpaceL, isSpaceGo, removeAll, removeAllAux, splitChar,
      List.isPrefixOf, iconFromFeedTextL, toLowerL, toLowerChar, hasSubList, parseFloatL,
      parseFloatCore, parseIntL, parseIntCore, allDigits, digitsToNat, ratTruncToInt]
  exact ⟨⟨h, by rw [h]; norm_num⟩, ⟨hw, by rw [hw]; norm_num⟩⟩

/-- C4 (amended): the decoder splits the input on the line-break marker and
folds a per-line switch over the lines; a line that does not split into
exactly two colon-separated parts leaves the record unchanged (the remaining
lines still processed by the fold); and the end-to-end example with the unit
suffix written as the feed encodes it (the entity &deg;C) decodes to summary
Cloudy, icon CLOUDY, temperature -1.3, wind speed 21, with every other
numeric field zero. -/
theorem currentConditions_decode_spec :
    (∀ cc : String,
       currentConditionsToCondition cc =
         (splitSub "<br/>".toList cc.toList).foldl processRecord {}) ∧
    (∀ (cond : WeatherCondition) (record : List Char),
       (splitChar ':' (removeAll "</b>".toList (removeAll "<b>".toList
           (trimSpaceL record)))).length ≠ 2 →
       processRecord cond record = cond) ∧
    (∀ value : List Char,
       (splitChar ' ' (trimSpaceL value)).length ≠ 2 →
       (splitChar ' ' (trimSpaceL value)).length ≠ 3 →
       windSpeedFromValue value = (parseIntL (trimSpaceL value)).getD 0) ∧
    currentConditionsToCondition
        "Condition: Cloudy <br/> Temperature: -1.3&deg;C <br/> Wind: SW 21 km/h" =
      { summary := "Cloudy", summaryIcon := .CLOUDY, temperature := -13 / 10,
        windSpeed := 21 } := by
  refine ⟨fun cc => rfl, ?_, ?_, ?_⟩
  · intro cond record h
    simp only [processRecord]
    rcases hs : splitChar ':' (removeAll "</b>".toList (removeAll "<b>".toList
        (trimSpaceL record))) with _ | ⟨a, _ | ⟨b, _ | ⟨c, t⟩⟩⟩
    · rfl
    · rfl
    · rw [hs] at h; simp at h
    · rfl
  · intro value h2 h3
    simp only [windSpeedFromValue]
    rw [if_neg h2, if_neg h3]
  · simp +decide [currentConditionsToCondition, splitSub, splitSubAux, processRecord,
      trimSpaceL, isSpaceGo, removeAll, removeAllAux, splitChar, List.isPrefixOf,
      iconFromFeedTextL, toLowerL, toLowerChar, hasSubList, parseFloatL, parseFloatCore,
      parseIntL, parseIntCore, allDigits, digitsToNat, ratTruncToInt]
    norm_num

/-- C4 witness: the skip rule of the amended claim applied to a concrete
line with two colons (three parts). -/
theorem currentConditions_decode_spec_witness :
    ((splitChar ':' (removeAll "</b>".toList (removeAll "<b>".toList
        (trimSpaceL "a: b: c".toList)))).length ≠ 2 ∧
     processRecord {} "a: b: c".toList = {}) ∧
    ((splitChar ' ' (trimSpaceL "Calm".toList)).length ≠ 2 ∧
     (splitChar ' ' (trimSpaceL "Calm".toList)).length ≠ 3 ∧
     windSpeedFromValue "Calm".toList = (parseIntL (trimSpaceL "Calm".toList)).getD 0) :=
  ⟨⟨by decide, currentConditions_decode_spec.2.1 {} _ (by decide)⟩,
   ⟨by decide, by decide, currentConditions_decode_spec.2.2.1 _ (by decide) (by decide)⟩⟩

/-- C9 counterexample: at a cache age of exactly 30 minutes the claimed
threshold (fetch when age is at least the TTL) asks for a fetch, but the
source compares with the strict After, so no upstream fetch happens. -/
theorem stationCache_ttl_boundary_counterexample :
    (refreshFrequency : Int) -
      ({ currentReport := none, forecast := [], lastRefreshed := 0 } : StationState).lastRefreshed
      ≥ refreshFrequency ∧
    (getReportS { currentReport := none, forecast := [], lastRefreshed := 0 }
      refreshFrequency .netError).2.2 = false := by
  exact ⟨by decide, by decide⟩

/-- The station state produced by a successful refresh from the given items at
the given time; refresh replaces all three fields wholesale. -/
def refreshedState (items : List FeedItem) (t : Int) : StationState :=
  { currentReport := some (parseFeed items).1
    forecast := (parseFeed items).2
    lastRefreshed := t }

/-- C9 (amended): a GetReport or GetForecast call performs an upstream fetch
exactly when now - last_refreshed is STRICTLY greater than 30 minutes (the
source uses the strict After comparison, so at exactly 30 minutes no fetch
happens), including the never-refreshed initial state; two GetReport calls
within the TTL window of a successful refresh trigger exactly one fetch, and
a call past the window triggers a second fetch that wholesale replaces both
the cached report and the cached forecast list. -/
theorem stationCache_ttl_spec :
    (∀ (st : StationState) (now : Int) (up : UpstreamOutcome),
       ((getReportS st now up).2.2 = true ↔ now - st.lastRefreshed > refreshFrequency) ∧
       ((getForecastS st now up).2.2 = true ↔ now - st.lastRefreshed > refreshFrequency)) ∧
    (∀ (t0 t1 t2 : Int) (items1 items2 : List FeedItem) (up : UpstreamOutcome),
       t0 > refreshFrequency →
       t1 - t0 ≤ refreshFrequency →
       t2 - t0 > refreshFrequency →
       (getReportS { currentReport := none, forecast := [], lastRefreshed := 0 } t0
           (.feedOk items1)).2.2 = true ∧
       (getReportS { currentReport := none, forecast := [], lastRefreshed := 0 } t0
           (.feedOk items1)).2.1 = refreshedState items1 t0 ∧
       (getReportS (refreshedState items1 t0) t1 up) =
         (.ok (some (parseFeed items1).1), refreshedState items1 t0, false) ∧
       (getReportS (refreshedState items1 t0) t2 (.feedOk items2)).2.2 = true ∧
       (getReportS (refreshedState items1 t0) t2 (.feedOk items2)).2.1 =
         refreshedState items2 t2) := by
  constructor
  · intro st now up
    have hsr : (shouldRefresh now st = true) ↔ now - st.lastRefreshed > refreshFrequency := by
      simp only [shouldRefresh, decide_eq_true_eq]
      omega
    have hrep : (getReportS st now up).2.2 = shouldRefresh now st := by
      unfold getReportS
      by_cases h : shouldRefresh now st = true
      · rw [if_pos h, h]
        cases refresh st now up <;> rfl
      · rw [if_neg h]
        rw [Bool.not_eq_true] at h
        rw [h]
    have hfc : (getForecastS st now up).2.2 = shouldRefresh now st := by
      unfold getForecastS
      by_cases h : shouldRefresh now st = true
      · rw [if_pos h, h]
        cases refresh st now up <;> rfl
      · rw [if_neg h]
        rw [Bool.not_eq_true] at h
        rw [h]
    rw [hrep, hfc]
    exact ⟨hsr, hsr⟩
  · intro t0 t1 t2 items1 items2 up h0 h1 h2
    have hs0 : shouldRefresh t0
        ({ currentReport := none, forecast := [], lastRefreshed := 0 } : StationState) = true := by
      simp only [shouldRefresh, decide_eq_true_eq]
      show t0 - refreshFrequency > 0
      omega
    have hs1 : ¬ (shouldRefresh t1 (refreshedState items1 t0) = true) := by
      simp only [shouldRefresh, decide_eq_true_eq, refreshedState]
      show ¬ (t1 - refreshFrequency > t0)
      omega
    have hs2 : shouldRefresh t2 (refreshedState items1 t0) = true := by
      simp only [shouldRefresh, decide_eq_true_eq, refreshedState]
      show t2 - refreshFrequency > t0
      omega
    have e0 : getReportS { currentReport := none, forecast := [], lastRefreshed := 0 } t0
        (.feedOk items1) =
        (.ok (some (parseFeed items1).1), refreshedState items1 t0, true) := by
      unfold getReportS
      rw [if_pos hs0]
      rfl
    have e1 : getReportS (refreshedState items1 t0) t1 up =
        (.ok (some (parseFeed items1).1), refreshedState items1 t0, false) := by
      unfold getReportS
      rw [if_neg hs1]
      rfl
    have e2 : getReportS (refreshedState items1 t0) t2 (.feedOk items2) =
        (.ok (some (parseFeed items2).1), refreshedState items2 t2, true) := by
      unfold getReportS
      rw [if_pos hs2]
      rfl
    exact ⟨by rw [e0], by rw [e0], e1, by rw [e2], by rw [e2]⟩

/-- C9 witness: the amended cache discipline at concrete times: a first call
at twice the TTL (stale, fetches), a second call one nanosecond later (fresh,
no fetch), a third call one nanosecond past the next TTL boundary (stale
again, fetches and replaces). -/
theorem stationCache_ttl_spec_witness :
    (getReportS { currentReport := none, forecast := [], lastRefreshed := 0 } 3600000000000
        (.feedOk [])).2.2 = true ∧
    (getReportS { currentReport := none, forecast := [], lastRefreshed := 0 } 3600000000000
        (.feedOk [])).2.1 = refreshedState [] 3600000000000 ∧
    (getReportS (refreshedState [] 3600000000000) 3600000000001 .netError) =
      (.ok (some (parseFeed []).1), refreshedState [] 3600000000000, false) ∧
    (getReportS (refreshedState [] 3600000000000) 5400000000001 (.feedOk [])).2.2 = true ∧
    (getReportS (refreshedState [] 3600000000000) 5400000000001 (.feedOk [])).2.1 =
      refreshedState [] 5400000000001 :=
  stationCache_ttl_spec.2 3600000000000 3600000000001 5400000000001 [] [] .netError
    (by decide) (by decide) (by decide)

/-- The category fold inside parseFeed appends one forecast record per
Weather Forecasts tag and leaves the forecast list alone otherwise. -/
theorem parseFeedStep_snd (item : FeedItem) :
    ∀ (cats : List String) (acc : WeatherReport × List WeatherForecast),
      (cats.foldl
        (fun acc cat =>
          if cat = "Current Conditions" then (reportFromItem acc.1 item, acc.2)
          else if cat = "Weather Forecasts" then (acc.1, acc.2 ++ [mkForecastRecord item])
          else acc) acc).2
      = acc.2 ++ cats.filterMap
          (fun cat => if cat = "Weather Forecasts" then some (mkForecastRecord item)
                      else none) := by
  intro cats
  induction cats with
  | nil => intro acc; simp
  | cons cat rest ih =>
    intro acc
    rw [List.foldl_cons]
    by_cases hW : cat = "Weather Forecasts"
    · subst hW
      rw [if_neg (by decide), if_pos rfl, ih]
      simp [List.filterMap_cons]
    · by_cases hC : cat = "Current Conditions"
      · rw [if_pos hC, ih]
        simp [List.filterMap_cons, hW]
      · rw [if_neg hC, if_neg hW, ih]
        simp [List.filterMap_cons, hW]

/-- The forecast list returned by parseFeed is exactly the concatenation, in
feed order, of one record per Weather Forecasts tag of each item. -/
theorem parseFeed_snd_eq (items : List FeedItem) :
    ∀ acc : WeatherReport × List WeatherForecast,
      (items.foldl parseFeedStep acc).2 = acc.2 ++ items.flatMap
        (fun item => item.categories.filterMap
          (fun cat => if cat = "Weather Forecasts" then some (mkForecastRecord item)
                      else none)) := by
  induction items with
  | nil => intro acc; simp
  | cons item rest ih =>
    intro acc
    have hstep : (parseFeedStep acc item).2 = acc.2 ++ item.categories.filterMap
        (fun cat => if cat = "Weather Forecasts" then some (mkForecastRecord item)
                    else none) :=
      parseFeedStep_snd item item.categories acc
    rw [List.foldl_cons, ih (parseFeedStep acc item), hstep, List.flatMap_cons,
      List.append_assoc]

/-- The time-of-day choice of a forecast title: 23:00 for a trailing night
token, 12:00 otherwise, in seconds of day. -/
def forecastSecs (dayToks : List (List Char)) : Nat :=
  (if dayToks.length > 1 ∧ dayToks.getD 1 [] = "night".toList then 23 else 12) * 3600

/-- C8: every feed item tagged Weather Forecasts contributes its forecast
record to the returned list, dating failures included; the record always
carries the item id, the created and updated timestamps, and the decoded
condition; forecastedFor is set on the resolved day at 23:00 when the title
carries a trailing night token and at 12:00 otherwise, exactly when the day
token of the title resolves, and stays absent when resolution fails. -/
theorem parseFeed_forecast_dating :
    (∀ items : List FeedItem,
       (parseFeed items).2 = items.flatMap
         (fun item => item.categories.filterMap
           (fun cat => if cat = "Weather Forecasts" then some (mkForecastRecord item)
                       else none))) ∧
    (∀ item : FeedItem,
       (mkForecastRecord item).forecastId = item.guid ∧
       (mkForecastRecord item).createdAt = some item.published ∧
       (mkForecastRecord item).updatedAt = some item.updated ∧
       (mkForecastRecord item).conditions = forecastConditionToCondition item.description) ∧
    (∀ item : FeedItem,
       (mkForecastRecord item).forecastedFor =
         match futureDateFromFeedDate item.published.day
             (String.mk ((splitChar ' '
               ((splitChar ':' item.title.toList).getD 0 [])).getD 0 [])) with
         | .error _ => none
         | .ok d =>
             some { day := d,
                    secs := forecastSecs (splitChar ' '
                      ((splitChar ':' item.title.toList).getD 0 [])) }) := by
  refine ⟨?_, ?_, ?_⟩
  · intro items
    unfold parseFeed
    rw [parseFeed_snd_eq]
    simp
  · intro item
    simp only [mkForecastRecord]
    cases h : futureDateFromFeedDate item.published.day
        (String.mk ((splitChar ' ' ((splitChar ':' item.title.toList).getD 0 [])).getD 0 [])) with
    | error e => exact ⟨rfl, rfl, rfl, rfl⟩
    | ok d => exact ⟨rfl, rfl, rfl, rfl⟩
  · intro item
    simp only [mkForecastRecord, forecastSecs]
    cases h : futureDateFromFeedDate item.published.day
        (String.mk ((splitChar ' ' ((splitChar ':' item.title.toList).getD 0 [])).getD 0 [])) with
    | error e => rfl
    | ok d => rfl

theorem two_r_arcsin_le (x : ℝ) :
    2 * (6371000 : ℝ) * Real.arcsin x ≤ 6371000 * Real.pi := by
  have h := Real.arcsin_le_pi_div_two x
  linarith

/-- Every haversine distance is far below math.MaxFloat64, so the first loop
iteration of Closest always updates the running minimum. -/
theorem distance_lt_maxFloat64 (lat1 lon1 lat2 lon2 : ℝ) :
    distance lat1 lon1 lat2 lon2 < maxFloat64 := by
  have hb : distance lat1 lon1 lat2 lon2 ≤ 6371000 * Real.pi := by
    simp only [distance]
    exact two_r_arcsin_le _
  have hpi : (6371000 : ℝ) * Real.pi ≤ 6371000 * 4 := by
    have h4 := Real.pi_le_four
    nlinarith
  have hmax : (6371000 : ℝ) * 4 < maxFloat64 := by
    have h1 : (2 : ℝ) ^ 971 ≤ 2 ^ 1023 := pow_le_pow_right (by norm_num) (by norm_num)
    have h2 : (2 : ℝ) ^ 25 ≤ 2 ^ 1023 := pow_le_pow_right (by norm_num) (by norm_num)
    have h3 : (2 : ℝ) ^ 1024 = 2 ^ 1023 * 2 := by rw [← pow_succ]
    have h4 : (6371000 : ℝ) * 4 < 2 ^ 25 := by norm_num
    unfold maxFloat64
    linarith
  linarith

/-- If no remaining entry beats the running minimum, the loop returns the
value it carries. -/
theorem closestLoop_no_update {α : Type} (lat lon : ℝ) (l : List (GeoEntry α)) :
    ∀ (sd : ℝ) (v : Option α),
      (∀ e ∈ l, sd ≤ distance lat lon e.latitude e.longitude) →
      closestLoop lat lon l sd v = v := by
  induction l with
  | nil => intro sd v _; rfl
  | cons e rest ih =>
    intro sd v h
    simp only [closestLoop]
    rw [if_neg (not_lt.mpr (h e (List.mem_cons_self e rest)))]
    exact ih sd v (fun e2 he2 => h e2 (List.mem_cons_of_mem e he2))

/-- If some remaining entry beats the running minimum, the loop returns the
value of the first entry attaining the least distance among the remaining
entries (and that distance beats the running minimum). -/
theorem closestLoop_found {α : Type} (lat lon : ℝ) (l : List (GeoEntry α)) :
    ∀ (sd : ℝ) (v : Option α),
      (∃ e ∈ l, distance lat lon e.latitude e.longitude < sd) →
      ∃ i : Fin l.length,
        closestLoop lat lon l sd v = some (l.get i).value ∧
        distance lat lon (l.get i).latitude (l.get i).longitude < sd ∧
        (∀ j : Fin l.length,
          distance lat lon (l.get i).latitude (l.get i).longitude ≤
          distance lat lon (l.get j).latitude (l.get j).longitude) ∧
        (∀ j : Fin l.length, j.val < i.val →
          distance lat lon (l.get i).latitude (l.get i).longitude <
          distance lat lon (l.get j).latitude (l.get j).longitude) := by
  induction l with
  | nil => intro sd v h; simp at h
  | cons e rest ih =>
    intro sd v h
    by_cases he : distance lat lon e.latitude e.longitude < sd
    · simp only [closestLoop]
      rw [if_pos he]
      by_cases hrest : ∃ e2 ∈ rest, distance lat lon e2.latitude e2.longitude <
          distance lat lon e.latitude e.longitude
      · obtain ⟨i, hres, hlt, hmin, hfirst⟩ := ih _ _ hrest
        refine ⟨i.succ, hres, lt_trans hlt he, ?_, ?_⟩
        · intro j
          induction j using Fin.cases with
          | zero => exact le_of_lt hlt
          | succ jj => exact hmin jj
        · intro j hj
          induction j using Fin.cases with
          | zero => exact hlt
          | succ jj => exact hfirst jj (Nat.lt_of_succ_lt_succ hj)
      · push_neg at hrest
        rw [closestLoop_no_update lat lon rest _ _ hrest]
        refine ⟨⟨0, Nat.succ_pos _⟩, rfl, he, ?_, ?_⟩
        · intro j
          induction j using Fin.cases with
          | zero => exact le_refl _
          | succ jj => exact hrest (rest.get jj) (rest.get_mem jj.val jj.isLt)
        · intro j hj
          exact absurd hj (Nat.not_lt_zero _)
    · simp only [closestLoop]
      rw [if_neg he]
      have hrest : ∃ e2 ∈ rest, distance lat lon e2.latitude e2.longitude < sd := by
        obtain ⟨e2, he2, hd2⟩ := h
        rcases List.mem_cons.1 he2 with h0 | hmem
        · subst h0; exact absurd hd2 he
        · exact ⟨e2, hmem, hd2⟩
      obtain ⟨i, hres, hlt, hmin, hfirst⟩ := ih sd v hrest
      have hse : sd ≤ distance lat lon e.latitude e.longitude := not_lt.mp he
      refine ⟨i.succ, hres, hlt, ?_, ?_⟩
      · intro j
        induction j using Fin.cases with
        | zero => exact le_of_lt (lt_of_lt_of_le hlt hse)
        | succ jj => exact hmin jj
      · intro j hj
        induction j using Fin.cases with
        | zero => exact lt_of_lt_of_le hlt hse
        | succ jj => exact hfirst jj (Nat.lt_of_succ_lt_succ hj)

/-- C3: Closest returns the empty result exactly when the set is empty, and on
a non-empty set returns the value of an entry whose haversine distance to the
query point is least; among equally near entries the earliest-inserted one
wins (the returned index strictly beats every earlier index). -/
theorem closest_is_nearest {α : Type} (gs : GeoSet α) (lat lon : ℝ) :
    (gs.Closest lat lon = none ↔ gs.entries = []) ∧
    (gs.entries ≠ [] → ∃ i : Fin gs.entries.length,
       gs.Closest lat lon = some (gs.entries.get i).value ∧
       (∀ j : Fin gs.entries.length,
          distance lat lon (gs.entries.get i).latitude (gs.entries.get i).longitude ≤
          distance lat lon (gs.entries.get j).latitude (gs.entries.get j).longitude) ∧
       (∀ j : Fin gs.entries.length, j.val < i.val →
          distance lat lon (gs.entries.get i).latitude (gs.entries.get i).longitude <
          distance lat lon (gs.entries.get j).latitude (gs.entries.get j).longitude)) := by
  have hnon : gs.entries ≠ [] → ∃ i : Fin gs.entries.length,
      gs.Closest lat lon = some (gs.entries.get i).value ∧
      (∀ j : Fin gs.entries.length,
         distance lat lon (gs.entries.get i).latitude (gs.entries.get i).longitude ≤
         distance lat lon (gs.entries.get j).latitude (gs.entries.get j).longitude) ∧
      (∀ j : Fin gs.entries.length, j.val < i.val →
         distance lat lon (gs.entries.get i).latitude (gs.entries.get i).longitude <
         distance lat lon (gs.entries.get j).latitude (gs.entries.get j).longitude) := by
    intro hne
    obtain ⟨e, rest, hl⟩ := List.exists_cons_of_ne_nil hne
    have hex : ∃ e2 ∈ gs.entries,
        distance lat lon e2.latitude e2.longitude < maxFloat64 := by
      refine ⟨e, ?_, distance_lt_maxFloat64 _ _ _ _⟩
      rw [hl]
      exact List.mem_cons_self e rest
    obtain ⟨i, hres, _, hmin, hfirst⟩ :=
      closestLoop_found lat lon gs.entries maxFloat64 none hex
    exact ⟨i, hres, hmin, hfirst⟩
  constructor
  · constructor
    · intro hnone
      by_contra hne
      obtain ⟨i, hres, _, _⟩ := hnon hne
      rw [hres] at hnone
      exact Option.noConfusion hnone
    · intro hempty
      show closestLoop lat lon gs.entries maxFloat64 none = none
      rw [hempty]
      rfl
  · exact hnon

/-- A one-entry GeoSet used to exercise the Closest specification. -/
noncomputable def demoGeoSet : GeoSet Nat :=
  { entries := [ { latitude := 0, longitude := 0, value := 7 } ] }

/-- C3 witness: the nearest-entry property applied to a concrete one-entry
set and query point. -/
theorem closest_is_nearest_witness :
    demoGeoSet.entries ≠ [] ∧
    (∃ i : Fin demoGeoSet.entries.length,
       demoGeoSet.Closest 1 2 = some (demoGeoSet.entries.get i).value ∧
       (∀ j : Fin demoGeoSet.entries.length,
          distance 1 2 (demoGeoSet.entries.get i).latitude
              (demoGeoSet.entries.get i).longitude ≤
          distance 1 2 (demoGeoSet.entries.get j).latitude
              (demoGeoSet.entries.get j).longitude) ∧
       (∀ j : Fin demoGeoSet.entries.length, j.val < i.val →
          distance 1 2 (demoGeoSet.entries.get i).latitude
              (demoGeoSet.entries.get i).longitude <
          distance 1 2 (demoGeoSet.entries.get j).latitude
              (demoGeoSet.entries.get j).longitude)) :=
  ⟨by simp [demoGeoSet], (closest_is_nearest demoGeoSet 1 2).2 (by simp [demoGeoSet])⟩

/-- Closest on a one-entry set always selects that entry: its distance beats
the MaxFloat64 initial minimum. -/
theorem closest_singleton {α : Type} (e : GeoEntry α) (lat lon : ℝ) :
    ({ entries := [e] } : GeoSet α).Closest lat lon = some e.value := by
  show closestLoop lat lon [e] maxFloat64 none = some e.value
  simp only [closestLoop]
  rw [if_pos (distance_lt_maxFloat64 lat lon e.latitude e.longitude)]

/-- C1: with no stations registered, both queries run the plain type
assertion on the nil Closest result and panic; the distinct
ErrLocationNotFound failure the claim demands is never produced, because the
nil check sits below the assertion and is dead code. -/
theorem apiEmptyStations_panics :
    apiGetCurrentReport { entries := [] } 0 0 0 .netError = .error .nilInterfacePanic ∧
    apiGetForecast { entries := [] } 0 0 0 .netError = .error .nilInterfacePanic ∧
    (Except.error APIError.nilInterfacePanic :
        Except APIError (GetCurrentReportResponse × RegStation)) ≠
      .error ErrLocationNotFound := by
  refine ⟨rfl, rfl, ?_⟩
  intro h
  injection h with h2
  exact APIError.noConfusion h2

/-- The one-station API used for the stale-refresh scenario: one registered
station with an empty (never-refreshed, hence stale) cache. -/
noncomputable def kwStationSet : GeoSet RegStation :=
  { entries := [ { latitude := 43.451, longitude := -80.488,
                   value := { name := "Kitchener Waterloo",
                              state := { currentReport := none, forecast := [],
                                         lastRefreshed := 0 } } } ] }

/-- C2: queries on a Stale station whose refresh fails upstream.  A network
error is returned by the station with its cache untouched, and GetForecast
surfaces it; but GetCurrentReport only logs it and returns a SUCCESS response
with an absent report, contrary to the claim.  A non-2xx status is worse: the
station hands the nil feed to parseFeed, which panics. -/
theorem apiStaleRefreshFailure_behavior :
    apiGetCurrentReport kwStationSet 43.451 (-80.488) (refreshFrequency + 1) .netError =
      .ok ({ report := none, stationName := "Kitchener Waterloo" },
           { name := "Kitchener Waterloo",
             state := { currentReport := none, forecast := [], lastRefreshed := 0 } }) ∧
    apiGetForecast kwStationSet 43.451 (-80.488) (refreshFrequency + 1) .netError =
      .error .upstreamError ∧
    (getReportS { currentReport := none, forecast := [], lastRefreshed := 0 }
        (refreshFrequency + 1) .netError).1 = .error .goError ∧
    (getReportS { currentReport := none, forecast := [], lastRefreshed := 0 }
        (refreshFrequency + 1) .netError).2.1 =
      { currentReport := none, forecast := [], lastRefreshed := 0 } ∧
    getReportS { currentReport := none, forecast := [], lastRefreshed := 0 }
        (refreshFrequency + 1) (.nonOKStatus 500) =
      (.error .nilFeedPanic,
       { currentReport := none, forecast := [], lastRefreshed := 0 }, true) := by
  have hc : kwStationSet.Closest 43.451 (-80.488) =
      some { name := "Kitchener Waterloo",
             state := { currentReport := none, forecast := [], lastRefreshed := 0 } } :=
    closest_singleton _ 43.451 (-80.488)
  refine ⟨?_, ?_, rfl, rfl, rfl⟩
  · simp only [apiGetCurrentReport]
    rw [hc]
    rfl
  · simp only [apiGetForecast]
    rw [hc]
    rfl
